import Mathlib

/-!
# Verification of the promptopia prompt store core

Shallow embedding of the TypeScript sources (`src/services/prompts.service.ts`,
`src/utils/prompt-validation.ts`, `src/types/index.ts`) in Lean 4.

Strings are modelled as lists of characters.  JavaScript records
(`Record<string, string>`) are modelled as association lists of own
properties.  Nondeterministic inputs of the code (the generated id, the
current timestamp) are passed as explicit parameters.  The file-backed
store is modelled as an association list from ids to prompts; the
per-file read outcomes seen by `listPrompts` are modelled as a list of
`Except` values in enumeration order.
-/

namespace Promptopia

abbrev Str := List Char

/-- JavaScript whitespace as relevant to `String.prototype.trim` for the
characters this code ever handles. -/
def isWs (c : Char) : Bool :=
  c = ' ' || c = '\t' || c = '\n' || c = '\r' || c = '\x0b' || c = '\x0c'

/-- Model of `String.prototype.trim`: drop whitespace from both ends. -/
def trim (s : Str) : Str :=
  ((s.dropWhile isWs).reverse.dropWhile isWs).reverse

/-- Model of the JS guard `!s || !s.trim()` used on required string
arguments: the string is empty or consists only of whitespace. -/
def isBlank (s : Str) : Bool :=
  s.isEmpty || (trim s).isEmpty

/-- A character other than an opening or closing brace: the character
class of the regex `[^{}]` in `extractVariables` and `replaceVariables`. -/
def notBrace (c : Char) : Bool :=
  !(c = '{') && !(c = '}')

/-- One token of the left-to-right scan performed by the global regex
in `extractVariables` / `replaceVariables`: either a literal character
that is not part of any match, or a matched placeholder with its
captured (untrimmed) inner name. -/
inductive Tok where
  | lit (c : Char)
  | ph (name : Str)
deriving DecidableEq, Repr

/-- The left-to-right scan of the global regex `{{([^{}]+)}}` (written
here in words to avoid brace escapes): at each position, a match needs
two opening braces, a nonempty run of non-brace characters, and two
closing braces; on failure the scan advances one character.  Matches are
non-overlapping and leftmost, exactly as `String.prototype.match` /
`String.prototype.replace` with a global regex behave.  Both
`extractVariables` and `replaceVariables` in `prompts.service.ts` run
this same scan; it is factored out here once. -/
def tokenizeF : Nat → Str → List Tok
  | _, [] => []
  | _, [c] => [Tok.lit c]
  | 0, _ :: _ :: _ => []
  | fuel + 1, c :: d :: rest =>
    if c = '{' ∧ d = '{' then
      let name := rest.takeWhile notBrace
      if name = [] then Tok.lit c :: tokenizeF fuel (d :: rest)
      else
        match rest.dropWhile notBrace with
        | '}' :: '}' :: rest2 => Tok.ph name :: tokenizeF fuel rest2
        | _ => Tok.lit c :: tokenizeF fuel (d :: rest)
    else Tok.lit c :: tokenizeF fuel (d :: rest)

def tokenize (s : Str) : List Tok :=
  tokenizeF s.length s

theorem length_dropWhile_le (p : Char → Bool) (l : Str) :
    (l.dropWhile p).length ≤ l.length :=
  (List.dropWhile_sublist p).length_le

theorem tokenizeF_irrel :
    ∀ f1 f2 s, s.length ≤ f1 → s.length ≤ f2 → tokenizeF f1 s = tokenizeF f2 s := by
  intro f1
  induction f1 with
  | zero =>
    intro f2 s h1 _
    have hs : s = [] := List.eq_nil_of_length_eq_zero (Nat.le_zero.mp h1)
    subst hs
    cases f2 <;> rfl
  | succ f ih =>
    intro f2 s h1 h2
    match s with
    | [] => cases f2 <;> rfl
    | [c] => cases f2 <;> rfl
    | c :: d :: rest =>
      simp only [List.length_cons] at h1 h2
      match f2 with
      | 0 => omega
      | f2n + 1 =>
        have hdr : (d :: rest).length ≤ f := by simp only [List.length_cons]; omega
        have hdr2 : (d :: rest).length ≤ f2n := by simp only [List.length_cons]; omega
        simp only [tokenizeF]
        split
        · split
          · rw [ih f2n (d :: rest) hdr hdr2]
          · have hlen := length_dropWhile_le notBrace rest
            split
            next rest2 heq =>
              have hr2 : rest2.length ≤ f := by
                rw [heq] at hlen; simp only [List.length_cons] at hlen; omega
              have hr2b : rest2.length ≤ f2n := by
                rw [heq] at hlen; simp only [List.length_cons] at hlen; omega
              rw [ih f2n rest2 hr2 hr2b]
            next =>
              rw [ih f2n (d :: rest) hdr hdr2]
        · rw [ih f2n (d :: rest) hdr hdr2]

theorem tokenize_nil : tokenize [] = [] := rfl

theorem tokenize_one (c : Char) : tokenize [c] = [Tok.lit c] := rfl

/-- The recursive unfolding of the scan on a string of length at least
two. -/
theorem tokenize_cons2 (c d : Char) (rest : Str) :
    tokenize (c :: d :: rest) =
      if c = '{' ∧ d = '{' then
        if rest.takeWhile notBrace = [] then Tok.lit c :: tokenize (d :: rest)
        else
          match rest.dropWhile notBrace with
          | '}' :: '}' :: rest2 => Tok.ph (rest.takeWhile notBrace) :: tokenize rest2
          | _ => Tok.lit c :: tokenize (d :: rest)
      else Tok.lit c :: tokenize (d :: rest) := by
  show tokenizeF (rest.length + 1 + 1) (c :: d :: rest) = _
  simp only [tokenizeF, tokenize]
  have hlen := length_dropWhile_le notBrace rest
  split
  · split
    · rw [tokenizeF_irrel (rest.length + 1) (d :: rest).length (d :: rest)] <;>
        simp only [List.length_cons] <;> omega
    · split
      next rest2 heq =>
        rw [heq] at hlen
        simp only [List.length_cons] at hlen
        rw [tokenizeF_irrel (rest.length + 1) rest2.length rest2] <;> omega
      next =>
        rw [tokenizeF_irrel (rest.length + 1) (d :: rest).length (d :: rest)] <;>
          simp only [List.length_cons] <;> omega
  · rw [tokenizeF_irrel (rest.length + 1) (d :: rest).length (d :: rest)] <;>
      simp only [List.length_cons] <;> omega

/-- The raw (not yet deduplicated) list of captured placeholder names,
in match order: the value of `content.match(variableRegex) || []` with
the surrounding braces stripped (`match.slice(2, -2)`). -/
def extractAll (s : Str) : List Str :=
  (tokenize s).filterMap fun t =>
    match t with
    | Tok.ph n => some n
    | Tok.lit _ => none

/-- Deduplication keeping the first occurrence of each element, the
semantics of inserting into a JS `Set` and spreading it back into an
array. -/
def dedupFirstAux (seen : List Str) : List Str → List Str
  | [] => []
  | a :: l => if a ∈ seen then dedupFirstAux seen l else a :: dedupFirstAux (a :: seen) l

def dedupFirst (l : List Str) : List Str :=
  dedupFirstAux [] l

/-- `extractVariables` from `prompts.service.ts`: the distinct captured
placeholder names, first occurrence first. -/
def extractVariables (s : Str) : List Str :=
  dedupFirst (extractAll s)

/-- Association-list lookup, modelling own-property access on a plain
JS object used as a string map. -/
def lookupVar : List (Str × Str) → Str → Option Str
  | [], _ => none
  | (k, v) :: rest, x => if k = x then some v else lookupVar rest x

/-- Model of the `in` operator on a JS record used as a map of own
properties: the key is present. -/
def hasKey (vars : List (Str × Str)) (x : Str) : Bool :=
  (lookupVar vars x).isSome

/-- The verbatim text of an unsubstituted placeholder, two opening
braces, the captured name, two closing braces: the `match` argument the
replacement callback returns when the variable is absent or falsy. -/
def phText (name : Str) : Str :=
  '{' :: '{' :: (name ++ ['}', '}'])

/-- The replacement performed for a single match in `replaceVariables`:
`variables[variable.trim()] || match`.  An absent key and an empty
string value are both falsy in JS, so both leave the placeholder
intact. -/
def renderTok (vars : List (Str × Str)) : Tok → Str
  | Tok.lit c => [c]
  | Tok.ph name =>
    match lookupVar vars (trim name) with
    | some v => if v = [] then phText name else v
    | none => phText name

/-- `replaceVariables` from `prompts.service.ts`: a single left-to-right
pass replacing each matched placeholder by its (trimmed-key) value when
that value is truthy, and leaving it verbatim otherwise.  Literal
characters outside matches are copied unchanged. -/
def replaceVariables (text : Str) (vars : List (Str × Str)) : Str :=
  (tokenize text).flatMap (renderTok vars)

/-- A string free of brace characters. -/
def braceFree (s : Str) : Bool :=
  s.all notBrace

/-- Every brace character of the text belongs to a complete placeholder:
the scan decomposes the text into placeholders and non-brace literals. -/
def noStrayBraces (s : Str) : Bool :=
  (tokenize s).all fun t =>
    match t with
    | Tok.lit c => notBrace c
    | Tok.ph _ => true

/-- Index of the first occurrence of an element in a list (length of the
list when absent). -/
def firstIdx : List Str → Str → Nat
  | [], _ => 0
  | a :: l, x => if a = x then 0 else firstIdx l x + 1

/-! ## Data model (`src/types/index.ts`) -/

/-- `MessageContent` from `types/index.ts`: `type` is a string tag
(`text` or `image` in well-typed data, but validation treats it as an
arbitrary string), `text` and `image` are optional strings. -/
structure MessageContent where
  type : Str
  text : Option Str
  image : Option Str
deriving DecidableEq, Repr

/-- `PromptMessage` from `types/index.ts`.  `role` is typed
`user | assistant` in TS but runtime validation treats it as an
arbitrary string, and the update path can persist any value, so it is
modelled as a string. -/
structure PromptMessage where
  role : Str
  content : MessageContent
deriving DecidableEq, Repr

/-- The one `Prompt` record shape unifying `SingleContentPrompt` and
`MultiMessagePrompt` (a JS object may carry any subset of the union's
fields; the discriminator is the `version` field). -/
structure Prompt where
  id : Str
  name : Str
  description : Option Str
  content : Option Str
  vars : List Str
  createdAt : Str
  updatedAt : Option Str
  version : Option Str
  messages : Option (List PromptMessage)
deriving DecidableEq, Repr

def userRole : Str := "user".toList
def assistantRole : Str := "assistant".toList
def textType : Str := "text".toList
def imageType : Str := "image".toList
def v20 : Str := "2.0".toList

/-- Type guard from `types/index.ts`: a prompt is Multi-Message iff the
`version` field is present and equals `2.0`. -/
def isMultiMessagePrompt (p : Prompt) : Bool :=
  decide (p.version = some v20)

/-- Type guard from `types/index.ts`: `content` field present. -/
def isSingleContentPrompt (p : Prompt) : Bool :=
  p.content.isSome

/-- The two typed error classes of `utils/mcp-error.ts` thrown by the
service layer. -/
inductive McpError where
  | validation (message : Str)
  | notFound (message : Str)
deriving DecidableEq, Repr

def nameRequiredMsg : Str := "Prompt name is required".toList
def contentRequiredMsg : Str := "Prompt content is required".toList
def oneMessageRequiredMsg : Str := "At least one message is required".toList
def invalidStructureMsg : Str := "Invalid message structure".toList
def idRequiredMsg : Str := "Prompt ID is required".toList
def oneFieldRequiredMsg : Str := "At least one field to update must be provided".toList
def missingVarsPrefix : Str := "Missing required variables: ".toList

def promptNotFoundMsg (id : Str) : Str :=
  "Prompt not found: ".toList ++ id

def deletedMsg (id : Str) : Str :=
  "Prompt ".toList ++ id ++ " deleted successfully".toList

def updatedMsg (id : Str) : Str :=
  "Prompt ".toList ++ id ++ " updated successfully".toList

/-! ## Validation (`src/utils/prompt-validation.ts`) -/

/-- `isValidMessage`: role is `user` or `assistant`; `text`-kind content
must carry a `text` string (possibly empty), `image`-kind content must
carry an `image` string, any other kind is invalid.  The content object
itself and the string-typedness of `type` are guaranteed by the record
model. -/
def isValidMessage (m : PromptMessage) : Bool :=
  if m.role = userRole ∨ m.role = assistantRole then
    if m.content.type = textType then m.content.text.isSome
    else if m.content.type = imageType then m.content.image.isSome
    else false
  else false

/-- `validateMessages`: non-empty and every message valid. -/
def validateMessages (messages : List PromptMessage) : Bool :=
  !messages.isEmpty && messages.all isValidMessage

/-! ## The prompts service (`src/services/prompts.service.ts`)

Each operation takes the nondeterministic runtime inputs (generated id,
current ISO timestamp) and the current store contents as parameters and
returns `Except McpError` of its result (paired with the new store for
the mutating operations).  `writeJSONFile` keyed by `id + ".json"` is
modelled as an association-list overwrite. -/

abbrev Store := List (Str × Prompt)

def lookupPrompt : Store → Str → Option Prompt
  | [], _ => none
  | (k, p) :: rest, id => if k = id then some p else lookupPrompt rest id

def insertStore (store : Store) (id : Str) (p : Prompt) : Store :=
  (id, p) :: store.filter fun e => decide ¬(e.1 = id)

def removeStore (store : Store) (id : Str) : Store :=
  store.filter fun e => decide ¬(e.1 = id)

/-- `extractVariablesFromMessages`: the per-message variable lists of
every truthy `text`-kind text, accumulated into one insertion-ordered
set. -/
def messageVars (m : PromptMessage) : List Str :=
  match m.content.text with
  | some t => if m.content.type = textType ∧ t ≠ [] then extractVariables t else []
  | none => []

def extractVariablesFromMessages (messages : List PromptMessage) : List Str :=
  dedupFirst (messages.flatMap messageVars)

/-- `params.description?.trim() || ''`: an absent description becomes
the empty string, a present one is trimmed (a whitespace-only one also
collapsing to empty). -/
def normDesc : Option Str → Str
  | none => []
  | some d => trim d

/-- JS truthiness of an optional string argument: present and
non-empty. -/
def truthyOpt : Option Str → Bool
  | none => false
  | some s => !s.isEmpty

structure AddPromptParams where
  name : Str
  content : Str
  description : Option Str
deriving DecidableEq, Repr

/-- `addPrompt`: validates name and content are non-blank, then builds
and persists a single-content prompt.  Note the source sets both
`createdAt` and `updatedAt` to the same freshly read timestamp. -/
def addPrompt (params : AddPromptParams) (id now : Str) : Except McpError Prompt :=
  if isBlank params.name then Except.error (McpError.validation nameRequiredMsg)
  else if isBlank params.content then Except.error (McpError.validation contentRequiredMsg)
  else Except.ok
    { id := id
      name := trim params.name
      content := some params.content
      description := some (normDesc params.description)
      vars := extractVariables params.content
      createdAt := now
      updatedAt := some now
      version := none
      messages := none }

structure AddMultiMessagePromptParams where
  name : Str
  description : Option Str
  messages : List PromptMessage
deriving DecidableEq, Repr

/-- `addMultiMessagePrompt`: validates name, non-empty messages and
message structure, then builds and persists a multi-message prompt (no
`updatedAt` field is written). -/
def addMultiMessagePrompt (params : AddMultiMessagePromptParams) (id now : Str) :
    Except McpError Prompt :=
  if isBlank params.name then Except.error (McpError.validation nameRequiredMsg)
  else if params.messages.isEmpty then Except.error (McpError.validation oneMessageRequiredMsg)
  else if !validateMessages params.messages then
    Except.error (McpError.validation invalidStructureMsg)
  else Except.ok
    { id := id
      name := trim params.name
      content := none
      description := some (normDesc params.description)
      vars := extractVariablesFromMessages params.messages
      createdAt := now
      updatedAt := none
      version := some v20
      messages := some params.messages }

/-- `getPrompt`: blank id is a validation error; a missing blob maps to
`NotFoundError`. -/
def getPrompt (id : Str) (store : Store) : Except McpError Prompt :=
  if isBlank id then Except.error (McpError.validation idRequiredMsg)
  else
    match lookupPrompt store id with
    | some p => Except.ok p
    | none => Except.error (McpError.notFound (promptNotFoundMsg id))

/-- The loop body of `listPrompts`: push each successfully read prompt,
skip (after logging) each file whose read failed. -/
def listLoop : List (Except Str Prompt) → List Prompt → List Prompt
  | [], acc => acc
  | Except.ok p :: rest, acc => listLoop rest (acc ++ [p])
  | Except.error _ :: rest, acc => listLoop rest acc

/-- `listPrompts`, taking the per-file read outcomes (in blob-store
enumeration order) as input: an `Except.error` entry is an unreadable
or corrupt blob. -/
def listPrompts (reads : List (Except Str Prompt)) : List Prompt :=
  listLoop reads []

structure DeletePromptResult where
  success : Bool
  message : Str
deriving DecidableEq, Repr

/-- `deletePrompt`: blank id is a validation error; the prompt is first
fetched (missing maps to `NotFoundError`) and then its blob removed. -/
def deletePrompt (id : Str) (store : Store) : Except McpError (DeletePromptResult × Store) :=
  if isBlank id then Except.error (McpError.validation idRequiredMsg)
  else
    match lookupPrompt store id with
    | none => Except.error (McpError.notFound (promptNotFoundMsg id))
    | some _ =>
      Except.ok ({ success := true, message := deletedMsg id }, removeStore store id)

structure UpdatePromptParams where
  id : Str
  name : Option Str
  description : Option Str
  messages : Option (List PromptMessage)
deriving DecidableEq, Repr

structure UpdatePromptResult where
  success : Bool
  message : Str
  prompt : Prompt
deriving DecidableEq, Repr

/-- The conditional-spread name patch of the non-converting update
branches: applied only when `params.name` is truthy (present and
non-empty); note a whitespace-only name is truthy and trims to the
empty string. -/
def patchName (old : Str) : Option Str → Str
  | none => old
  | some n => if n = [] then old else trim n

/-- The conditional-spread description patch: applied whenever
`params.description !== undefined`, trimming the value
(`trim || ''` collapses to plain trimming). -/
def patchDesc (old : Option Str) : Option Str → Option Str
  | none => old
  | some d => some (trim d)

/-- The branch of `updatePrompt` for an existing multi-message prompt:
spread of the existing record patched by the supplied fields; supplied
messages (any array, including the empty one) replace the old ones and
recompute `variables`. -/
def updMulti (existing : Prompt) (params : UpdatePromptParams) (now : Str) : Prompt :=
  { existing with
    name := patchName existing.name params.name
    description := patchDesc existing.description params.description
    messages :=
      match params.messages with
      | some ms => some ms
      | none => existing.messages
    vars :=
      match params.messages with
      | some ms => extractVariablesFromMessages ms
      | none => existing.vars
    updatedAt := some now }

/-- The conversion branch of `updatePrompt`: a single-content prompt
with messages supplied becomes a version-2.0 multi-message prompt,
keeping `id` and `createdAt`, dropping `content`.  The name here uses
`params.name?.trim() || existing.name` (trim before the truthiness
test, unlike the other branches). -/
def convertToMulti (existing : Prompt) (params : UpdatePromptParams)
    (ms : List PromptMessage) (now : Str) : Prompt :=
  { id := existing.id
    name :=
      match params.name with
      | some n => if trim n = [] then existing.name else trim n
      | none => existing.name
    description :=
      match params.description with
      | some d => some (trim d)
      | none => existing.description
    content := none
    vars := extractVariablesFromMessages ms
    createdAt := existing.createdAt
    updatedAt := some now
    version := some v20
    messages := some ms }

/-- The keep-single branch of `updatePrompt`: patch name/description
only. -/
def keepSingle (existing : Prompt) (params : UpdatePromptParams) (now : Str) : Prompt :=
  { existing with
    name := patchName existing.name params.name
    description := patchDesc existing.description params.description
    updatedAt := some now }

/-- `updatePrompt`.  The at-least-one-field guard is the JS truthiness
test `!params.name && !params.description && !params.messages`: an
empty-string name or description counts as absent, while any supplied
messages array (even empty) counts as present. -/
def updatePrompt (params : UpdatePromptParams) (store : Store) (now : Str) :
    Except McpError (UpdatePromptResult × Store) :=
  if isBlank params.id then Except.error (McpError.validation idRequiredMsg)
  else if !truthyOpt params.name && !truthyOpt params.description && params.messages.isNone then
    Except.error (McpError.validation oneFieldRequiredMsg)
  else
    match lookupPrompt store params.id with
    | none => Except.error (McpError.notFound (promptNotFoundMsg params.id))
    | some existing =>
      let updated :=
        if isMultiMessagePrompt existing then updMulti existing params now
        else
          match params.messages with
          | some ms => convertToMulti existing params ms now
          | none => keepSingle existing params now
      Except.ok ({ success := true, message := updatedMsg params.id, prompt := updated },
        insertStore store params.id updated)

structure ApplyPromptParams where
  id : Str
  vars : List (Str × Str)
deriving DecidableEq, Repr

structure ApplyPromptResult where
  result : Str
  messages : Option (List PromptMessage)
deriving DecidableEq, Repr

/-- `missingVariables.join(', ')`. -/
def joinComma : List Str → Str
  | [] => []
  | [x] => x
  | x :: y :: rest => x ++ (',' :: ' ' :: joinComma (y :: rest))

/-- The per-message substitution of `applyPrompt`: the content spread
replaces only `text`, and only when the content kind is `text` and the
text is truthy (present and non-empty). -/
def applyMessage (vars : List (Str × Str)) (m : PromptMessage) : PromptMessage :=
  match m.content.text with
  | some t =>
    if m.content.type = textType ∧ t ≠ [] then
      { m with content := { m.content with text := some (replaceVariables t vars) } }
    else m
  | none => m

/-- Model of the external `JSON.stringify(appliedMessages, null, 2)`
runtime builtin: a concrete rendering of the message list.  No claim
constrains its exact format. -/
def stringifyMessages (ms : List PromptMessage) : Str :=
  ms.flatMap fun m =>
    m.role ++ (':' :: m.content.type)
      ++ (match m.content.text with | some t => '"' :: (t ++ ['"']) | none => [])
      ++ (match m.content.image with | some i => '"' :: (i ++ ['"']) | none => [])

/-- `applyPrompt`: blank id is a validation error, a missing prompt is
`NotFoundError`; any variable of the entity missing from the supplied
map (own-key test `variable in params.vars`) is a validation error
listing the missing names; otherwise substitution is applied.  The
`typeof params.vars !== 'object'` guard always passes in this
model because the parameter is a map by construction.  Well-formed
stored data always carries `messages` on a multi-message prompt and
`content` on a single-content one; the JS code would crash otherwise,
and the model totalises those cases with an empty default. -/
def applyPrompt (params : ApplyPromptParams) (store : Store) : Except McpError ApplyPromptResult :=
  if isBlank params.id then Except.error (McpError.validation idRequiredMsg)
  else
    match lookupPrompt store params.id with
    | none => Except.error (McpError.notFound (promptNotFoundMsg params.id))
    | some prompt =>
      let missingVariables := prompt.vars.filter fun v => !hasKey params.vars v
      if missingVariables = [] then
        if isMultiMessagePrompt prompt then
          let applied := (prompt.messages.getD []).map (applyMessage params.vars)
          Except.ok { result := stringifyMessages applied, messages := some applied }
        else
          Except.ok
            { result := replaceVariables (prompt.content.getD []) params.vars
              messages := none }
      else Except.error (McpError.validation (missingVarsPrefix ++ joinComma missingVariables))

end Promptopia

namespace Promptopia

/-! ## Properties of first-occurrence deduplication -/

theorem mem_dedupFirstAux :
    ∀ (l seen : List Str) (x : Str), x ∈ dedupFirstAux seen l ↔ x ∈ l ∧ x ∉ seen := by
  intro l
  induction l with
  | nil => intro seen x; simp [dedupFirstAux]
  | cons a l ih =>
    intro seen x
    by_cases ha : a ∈ seen
    · simp only [dedupFirstAux, if_pos ha, ih, List.mem_cons]
      constructor
      · rintro ⟨hx, hns⟩; exact ⟨Or.inr hx, hns⟩
      · rintro ⟨hx | hx, hns⟩
        · exact absurd (hx ▸ ha) hns
        · exact ⟨hx, hns⟩
    · simp only [dedupFirstAux, if_neg ha, List.mem_cons, ih]
      by_cases hxa : x = a
      · subst hxa; simp [ha]
      · tauto

theorem nodup_dedupFirstAux :
    ∀ (l seen : List Str), (dedupFirstAux seen l).Nodup := by
  intro l
  induction l with
  | nil => intro seen; simp [dedupFirstAux]
  | cons a l ih =>
    intro seen
    by_cases ha : a ∈ seen
    · simpa only [dedupFirstAux, if_pos ha] using ih seen
    · simp only [dedupFirstAux, if_neg ha, List.nodup_cons]
      refine ⟨fun hmem => ?_, ih (a :: seen)⟩
      have := (mem_dedupFirstAux l (a :: seen) a).mp hmem
      exact this.2 (List.mem_cons_self a seen)

theorem firstIdx_cons (a : Str) (l : List Str) (x : Str) :
    firstIdx (a :: l) x = if a = x then 0 else firstIdx l x + 1 := rfl

theorem pairwise_firstIdx_dedupFirstAux :
    ∀ (l seen : List Str),
      (dedupFirstAux seen l).Pairwise (fun a b => firstIdx l a < firstIdx l b) := by
  intro l
  induction l with
  | nil => intro seen; simp [dedupFirstAux]
  | cons a l ih =>
    intro seen
    by_cases ha : a ∈ seen
    · simp only [dedupFirstAux, if_pos ha]
      refine List.Pairwise.imp_of_mem ?_ (ih seen)
      intro x y hx hy hlt
      have hxm := (mem_dedupFirstAux l seen x).mp hx
      have hym := (mem_dedupFirstAux l seen y).mp hy
      have hxa : ¬(a = x) := fun h => hxm.2 (h ▸ ha)
      have hya : ¬(a = y) := fun h => hym.2 (h ▸ ha)
      simp only [firstIdx_cons, if_neg hxa, if_neg hya]
      omega
    · simp only [dedupFirstAux, if_neg ha, List.pairwise_cons]
      constructor
      · intro b hb
        have hbm := (mem_dedupFirstAux l (a :: seen) b).mp hb
        have hba : ¬(a = b) := fun h => hbm.2 (h ▸ List.mem_cons_self a seen)
        have h0 : firstIdx (a :: l) a = 0 := by simp [firstIdx_cons]
        have h1 : firstIdx (a :: l) b = firstIdx l b + 1 := by simp [firstIdx_cons, hba]
        rw [h0, h1]
        omega
      · refine List.Pairwise.imp_of_mem ?_ (ih (a :: seen))
        intro x y hx hy hlt
        have hxm := (mem_dedupFirstAux l (a :: seen) x).mp hx
        have hym := (mem_dedupFirstAux l (a :: seen) y).mp hy
        have hxa : ¬(a = x) := fun h => hxm.2 (h ▸ List.mem_cons_self a seen)
        have hya : ¬(a = y) := fun h => hym.2 (h ▸ List.mem_cons_self a seen)
        simp only [firstIdx_cons, if_neg hxa, if_neg hya]
        omega

theorem mem_dedupFirst (l : List Str) (x : Str) : x ∈ dedupFirst l ↔ x ∈ l := by
  simp [dedupFirst, mem_dedupFirstAux]

theorem nodup_dedupFirst (l : List Str) : (dedupFirst l).Nodup :=
  nodup_dedupFirstAux l []

theorem pairwise_firstIdx_dedupFirst (l : List Str) :
    (dedupFirst l).Pairwise (fun a b => firstIdx l a < firstIdx l b) :=
  pairwise_firstIdx_dedupFirstAux l []

end Promptopia

namespace Promptopia

/-- C7: `extractVariables` returns the distinct placeholder names found
between double-brace delimiters, captured verbatim without trimming
inner whitespace, deduplicated by exact captured string, in order of
first appearance; for empty text it returns the empty list.  Order of
first appearance is expressed by pairwise increasing first-occurrence
indices in the raw match list `extractAll`; the verbatim/no-trimming
behaviour is witnessed on a placeholder with embedded spaces, whose
trimmed and untrimmed spellings dedup to two distinct names. -/
theorem extractVariables_spec (s : Str) :
    extractVariables ([] : Str) = []
    ∧ (extractVariables s).Nodup
    ∧ (∀ n, n ∈ extractVariables s ↔ n ∈ extractAll s)
    ∧ (extractVariables s).Pairwise
        (fun a b => firstIdx (extractAll s) a < firstIdx (extractAll s) b)
    ∧ extractVariables
        ('{' :: '{' :: ' ' :: 'x' :: ' ' :: '}' :: '}' :: '{' :: '{' :: 'x' :: '}' :: '}'
          :: '{' :: '{' :: ' ' :: 'x' :: ' ' :: '}' :: '}' :: [])
        = [[' ', 'x', ' '], ['x']] := by
  refine ⟨rfl, nodup_dedupFirst _, ?_, pairwise_firstIdx_dedupFirst _, by decide⟩
  intro n
  exact mem_dedupFirst _ n

end Promptopia

namespace Promptopia

/-! ## Substitution completeness (claim C1) -/

/-- The captured names are exactly the placeholder tokens of the scan. -/
theorem mem_extractAll (s : Str) (n : Str) :
    n ∈ extractAll s ↔ Tok.ph n ∈ tokenize s := by
  simp only [extractAll, List.mem_filterMap]
  constructor
  · rintro ⟨t, ht, hmap⟩
    match t with
    | Tok.ph m => simp at hmap; exact hmap ▸ ht
    | Tok.lit _ => simp at hmap
  · intro h
    exact ⟨Tok.ph n, h, rfl⟩

theorem braceFree_append (a b : Str) :
    braceFree (a ++ b) = (braceFree a && braceFree b) := by
  simp [braceFree, List.all_append]

/-- The supplied map gives the trimmed spelling of a name a truthy,
brace-free value. -/
def goodValue (V : List (Str × Str)) (n : Str) : Bool :=
  match lookupVar V (trim n) with
  | some v => !v.isEmpty && braceFree v
  | none => false

theorem braceFree_renderTok (V : List (Str × Str)) :
    ∀ t : Tok,
      (∀ c, t = Tok.lit c → notBrace c = true) →
      (∀ n, t = Tok.ph n → goodValue V n = true) →
      braceFree (renderTok V t) = true := by
  intro t hlit hph
  match t with
  | Tok.lit c =>
    simp [renderTok, braceFree, hlit c rfl]
  | Tok.ph n =>
    have hg := hph n rfl
    simp only [goodValue] at hg
    simp only [renderTok]
    match hv : lookupVar V (trim n) with
    | none => rw [hv] at hg; simp at hg
    | some v =>
      rw [hv] at hg
      simp only [Bool.and_eq_true, Bool.not_eq_true'] at hg
      have hne : ¬(v = []) := by
        intro h; subst h; simp [List.isEmpty] at hg
      show braceFree (if v = [] then phText n else v) = true
      rw [if_neg hne]
      exact hg.2

theorem braceFree_flatMap (V : List (Str × Str)) :
    ∀ ts : List Tok,
      (∀ t ∈ ts, braceFree (renderTok V t) = true) →
      braceFree (ts.flatMap (renderTok V)) = true := by
  intro ts
  induction ts with
  | nil => intro _; rfl
  | cons t ts ih =>
    intro h
    simp only [List.flatMap_cons, braceFree_append, Bool.and_eq_true]
    exact ⟨h t (List.mem_cons_self t ts), ih fun u hu => h u (List.mem_cons_of_mem t hu)⟩

/-- A brace-free string is scanned as all-literal tokens. -/
theorem tokenize_of_braceFree :
    ∀ s : Str, braceFree s = true → tokenize s = s.map Tok.lit := by
  intro s
  induction s with
  | nil => intro _; rfl
  | cons c s ih =>
    intro h
    have hc : notBrace c = true := by
      simp only [braceFree, List.all_cons, Bool.and_eq_true] at h
      exact h.1
    have hs : braceFree s = true := by
      simp only [braceFree, List.all_cons, Bool.and_eq_true] at h
      exact h.2
    match s with
    | [] => rfl
    | d :: rest =>
      rw [tokenize_cons2]
      have hcne : ¬(c = '{' ∧ d = '{') := by
        rintro ⟨hc1, _⟩
        subst hc1
        simp [notBrace] at hc
      rw [if_neg hcne, ih hs]
      rfl

theorem extractAll_of_braceFree (s : Str) (h : braceFree s = true) :
    extractAll s = [] := by
  have hmap : ∀ l : Str,
      (l.map Tok.lit).filterMap
        (fun t => match t with | Tok.ph n => some n | Tok.lit _ => none) = ([] : List Str) := by
    intro l
    induction l with
    | nil => rfl
    | cons c l ih => simpa using ih
  simp only [extractAll, tokenize_of_braceFree s h]
  exact hmap s

/-- C1 as the spec states it: if the map has a key for every extracted
name, substitution leaves no placeholder.  Refuted: the code treats an
empty-string value as falsy (`variables[variable.trim()] || match`) and
leaves the placeholder intact even though the key is present. -/
theorem substitute_complete_counterexample :
    (extractVariables (['{', '{', 'x', '}', '}'] : Str)).all
        (fun n => hasKey [((['x'] : Str), ([] : Str))] n) = true
    ∧ extractAll
        (replaceVariables ['{', '{', 'x', '}', '}'] [((['x'] : Str), ([] : Str))])
      = [['x']] := by
  decide

/-- C1 amended: if every brace of the text belongs to a placeholder,
and the map assigns the trimmed spelling of every extracted name a
non-empty, brace-free value, then the substituted text contains no
placeholder (indeed no brace at all). -/
theorem substitute_complete (T : Str) (V : List (Str × Str))
    (hT : noStrayBraces T = true)
    (hV : ∀ n ∈ extractVariables T, goodValue V n = true) :
    extractAll (replaceVariables T V) = [] := by
  have hVall : ∀ n ∈ extractAll T, goodValue V n = true := by
    intro n hn
    exact hV n ((mem_dedupFirst _ n).mpr hn)
  have hfree : braceFree (replaceVariables T V) = true := by
    refine braceFree_flatMap V (tokenize T) ?_
    intro t ht
    refine braceFree_renderTok V t ?_ ?_
    · intro c hc
      subst hc
      simp only [noStrayBraces, List.all_eq_true] at hT
      exact hT (Tok.lit c) ht
    · intro n hn
      subst hn
      exact hVall n ((mem_extractAll T n).mpr ht)
  exact extractAll_of_braceFree _ hfree

/-- Witness for `substitute_complete` at a concrete input. -/
theorem substitute_complete_witness :
    noStrayBraces (['a', '{', '{', 'x', '}', '}', 'b'] : Str) = true
    ∧ (extractVariables (['a', '{', '{', 'x', '}', '}', 'b'] : Str)).all
        (fun n => goodValue [((['x'] : Str), (['v'] : Str))] n) = true
    ∧ extractAll
        (replaceVariables ['a', '{', '{', 'x', '}', '}', 'b']
          [((['x'] : Str), (['v'] : Str))]) = [] :=
  ⟨by decide, by decide,
    substitute_complete ['a', '{', '{', 'x', '}', '}', 'b']
      [((['x'] : Str), (['v'] : Str))] (by decide) (by decide)⟩

end Promptopia

namespace Promptopia

/-! ## Timestamps (claim C2) -/

/-- Concrete example inputs used by the witnesses below. -/
def pa0 : AddPromptParams :=
  { name := ['n'], content := ['c'], description := none }

def msgEx : PromptMessage :=
  { role := userRole, content := { type := textType, text := some ['h'], image := none } }

def pm0 : AddMultiMessagePromptParams :=
  { name := ['n'], description := none, messages := [msgEx] }

/-- The prompt `addPrompt pa0` builds with id `i` and timestamp `t`. -/
def p1ex : Prompt :=
  { id := ['i'], name := ['n'], description := some [], content := some ['c'],
    vars := [], createdAt := ['t'], updatedAt := some ['t'], version := none,
    messages := none }

/-- The prompt `addMultiMessagePrompt pm0` builds with id `i` and
timestamp `t`. -/
def p2ex : Prompt :=
  { id := ['i'], name := ['n'], description := some [], content := none,
    vars := [], createdAt := ['t'], updatedAt := none, version := some v20,
    messages := some [msgEx] }

/-- C2 as stated is refuted: an entity returned by `addPrompt` carries
an `updatedAt` field even though it has never been modified — the
source stamps `updatedAt: now` at creation time. -/
theorem addPrompt_updatedAt_counterexample :
    (addPrompt pa0 ['i'] ['t']).map (fun p => p.updatedAt) = Except.ok (some ['t'])
    ∧ (addPrompt pa0 ['i'] ['t']).map (fun p => p.updatedAt.isSome) = Except.ok true :=
  ⟨rfl, rfl⟩

/-- C2 amended: `addPrompt` stamps `updatedAt` with the creation
timestamp (the same value as `createdAt`); `addMultiMessagePrompt`
returns an entity with no `updatedAt`; every successful `updatePrompt`
stamps `updatedAt` with the update timestamp. -/
theorem updatedAt_behaviour
    (pa : AddPromptParams) (pm : AddMultiMessagePromptParams) (pu : UpdatePromptParams)
    (store : Store) (id now : Str) (p q : Prompt) (r : UpdatePromptResult) (st : Store) :
    (addPrompt pa id now = Except.ok p → p.updatedAt = some now ∧ p.createdAt = now)
    ∧ (addMultiMessagePrompt pm id now = Except.ok q → q.updatedAt = none)
    ∧ (updatePrompt pu store now = Except.ok (r, st) → r.prompt.updatedAt = some now) := by
  refine ⟨?_, ?_, ?_⟩
  · intro h
    simp only [addPrompt] at h
    split_ifs at h
    cases h
    exact ⟨rfl, rfl⟩
  · intro h
    simp only [addMultiMessagePrompt] at h
    split_ifs at h
    cases h
    rfl
  · intro h
    simp only [updatePrompt] at h
    split_ifs at h
    match hlk : lookupPrompt store pu.id with
    | none => rw [hlk] at h; cases h
    | some existing =>
      rw [hlk] at h
      cases h
      show (if isMultiMessagePrompt existing then updMulti existing pu now
        else match pu.messages with
          | some ms => convertToMulti existing pu ms now
          | none => keepSingle existing pu now).updatedAt = some now
      split
      · rfl
      · split <;> rfl

/-- The result of the keep-single update used in the witness. -/
def pu0 : UpdatePromptParams :=
  { id := ['i'], name := some ['m'], description := none, messages := none }

def r3ex : UpdatePromptResult :=
  { success := true, message := updatedMsg ['i'], prompt := keepSingle p1ex pu0 ['t'] }

/-- Witness for `updatedAt_behaviour` at concrete inputs on which all
three operations succeed. -/
theorem updatedAt_behaviour_witness :
    (addPrompt pa0 ['i'] ['t'] = Except.ok p1ex
      ∧ p1ex.updatedAt = some ['t'] ∧ p1ex.createdAt = ['t'])
    ∧ (addMultiMessagePrompt pm0 ['i'] ['t'] = Except.ok p2ex ∧ p2ex.updatedAt = none)
    ∧ (updatePrompt pu0 [(['i'], p1ex)] ['t']
        = Except.ok (r3ex, insertStore [(['i'], p1ex)] ['i'] r3ex.prompt)
      ∧ r3ex.prompt.updatedAt = some ['t']) :=
  ⟨⟨rfl,
    (updatedAt_behaviour pa0 pm0 pu0 [(['i'], p1ex)] ['i'] ['t'] p1ex p2ex r3ex
      (insertStore [(['i'], p1ex)] ['i'] r3ex.prompt)).1 rfl⟩,
   ⟨rfl,
    (updatedAt_behaviour pa0 pm0 pu0 [(['i'], p1ex)] ['i'] ['t'] p1ex p2ex r3ex
      (insertStore [(['i'], p1ex)] ['i'] r3ex.prompt)).2.1 rfl⟩,
   ⟨rfl,
    (updatedAt_behaviour pa0 pm0 pu0 [(['i'], p1ex)] ['i'] ['t'] p1ex p2ex r3ex
      (insertStore [(['i'], p1ex)] ['i'] r3ex.prompt)).2.2 rfl⟩⟩

end Promptopia

namespace Promptopia

/-! ## Message-list invariant (claim C3) -/

/-- A stored multi-message prompt used as the existing entity. -/
def multiEx : Prompt :=
  { id := ['i'], name := ['n'], description := some [], content := none,
    vars := [], createdAt := ['t'], updatedAt := none, version := some v20,
    messages := some [msgEx] }

/-- C3 as stated is refuted: `updatePrompt` never calls
`validateMessages`, and an empty messages array is truthy in JS, so an
update with `messages: []` succeeds and persists a multi-message entity
with zero messages. -/
theorem update_empty_messages_counterexample :
    (updatePrompt { id := ['i'], name := none, description := none, messages := some [] }
        [(['i'], multiEx)] ['u']).map
        (fun rs => (rs.1.prompt.messages, isMultiMessagePrompt rs.1.prompt))
      = Except.ok (some ([] : List PromptMessage), true)
    ∧ (updatePrompt { id := ['i'], name := none, description := none, messages := some [] }
        [(['i'], multiEx)] ['u']).map
        (fun rs => (lookupPrompt rs.2 ['i']).map (fun p => p.messages))
      = Except.ok (some (some ([] : List PromptMessage))) :=
  ⟨rfl, rfl⟩

/-- `validateMessages` soundness: a validated list is non-empty and each
message satisfies the role/content-kind invariant. -/
theorem validateMessages_sound (ms : List PromptMessage) (h : validateMessages ms = true) :
    ms ≠ []
    ∧ ∀ m ∈ ms,
        (m.role = userRole ∨ m.role = assistantRole)
        ∧ (m.content.type = textType ∨ m.content.type = imageType)
        ∧ (m.content.type = textType → m.content.text.isSome = true)
        ∧ (m.content.type = imageType → m.content.image.isSome = true) := by
  simp only [validateMessages, Bool.and_eq_true, Bool.not_eq_true', List.all_eq_true] at h
  obtain ⟨hne, hall⟩ := h
  constructor
  · intro he
    subst he
    simp [List.isEmpty] at hne
  · intro m hm
    have hv := hall m hm
    simp only [isValidMessage] at hv
    split_ifs at hv with hrole htext himage
    · have : textType ≠ imageType := by decide
      exact ⟨hrole, Or.inl htext, fun _ => hv, fun him => absurd (htext ▸ him) (by decide)⟩
    · exact ⟨hrole, Or.inr himage, fun ht => absurd (himage ▸ ht) (by decide), fun _ => hv⟩

/-- C3 amended: the invariant (at least one message; every message has
role `user` or `assistant` and content carrying `text` for the `text`
kind and `image` for the `image` kind) holds for every entity produced
by `addMultiMessagePrompt`, but is not enforced by `updatePrompt`,
which adopts any supplied messages array unvalidated. -/
theorem addMulti_messages_invariant (params : AddMultiMessagePromptParams) (id now : Str)
    (q : Prompt) (h : addMultiMessagePrompt params id now = Except.ok q) :
    ∃ ms, q.messages = some ms ∧ ms ≠ []
      ∧ ∀ m ∈ ms,
          (m.role = userRole ∨ m.role = assistantRole)
          ∧ (m.content.type = textType ∨ m.content.type = imageType)
          ∧ (m.content.type = textType → m.content.text.isSome = true)
          ∧ (m.content.type = imageType → m.content.image.isSome = true) := by
  simp only [addMultiMessagePrompt] at h
  split_ifs at h with h1 h2 h3
  cases h
  refine ⟨params.messages, rfl, ?_⟩
  have hv : validateMessages params.messages = true := by
    simpa using h3
  exact validateMessages_sound params.messages hv

/-- Witness for `addMulti_messages_invariant` at a concrete input. -/
theorem addMulti_messages_invariant_witness :
    addMultiMessagePrompt pm0 ['i'] ['t'] = Except.ok p2ex
    ∧ p2ex.messages = some [msgEx]
    ∧ ([msgEx] : List PromptMessage).length = 1
    ∧ (msgEx.role = userRole ∨ msgEx.role = assistantRole)
    ∧ (msgEx.content.type = textType ∨ msgEx.content.type = imageType)
    ∧ msgEx.content.text.isSome = true := by
  obtain ⟨ms, hms, -, hall⟩ := addMulti_messages_invariant pm0 ['i'] ['t'] p2ex rfl
  have hmse : ms = [msgEx] := by
    have : (some [msgEx] : Option (List PromptMessage)) = some ms := hms
    exact (Option.some.inj this).symm
  subst hmse
  obtain ⟨hrole, hkind, htext, -⟩ := hall msgEx (List.mem_cons_self msgEx [])
  exact ⟨rfl, rfl, rfl, hrole, hkind, htext rfl⟩

end Promptopia

namespace Promptopia

/-! ## The at-least-one-field guard of update (claim C4) -/

/-- C4 as stated is refuted: the guard is the JS truthiness test
`!params.name && !params.description && !params.messages`, so a caller
who supplies `description` as the empty string (a falsy but supplied
value) still gets the Validation failure, although one of the three
optional fields was supplied.  The id refers to an existing entity. -/
theorem update_nofield_counterexample :
    ({ id := ['i'], name := none, description := some [],
        messages := none : UpdatePromptParams }).description.isSome = true
    ∧ lookupPrompt [(['i'], p1ex)] ['i'] = some p1ex
    ∧ updatePrompt
        { id := ['i'], name := none, description := some [], messages := none }
        [(['i'], p1ex)] ['u']
      = Except.error (McpError.validation oneFieldRequiredMsg) :=
  ⟨rfl, rfl, rfl⟩

/-- C4 amended: for a non-blank id, `updatePrompt` fails with the
at-least-one-field Validation error iff all three optional fields are
absent under JS truthiness: `name` absent or empty, `description`
absent or empty, and `messages` absent (any supplied array, even empty,
counts as present). -/
theorem update_nofield_iff (params : UpdatePromptParams) (store : Store) (now : Str)
    (hid : isBlank params.id = false) :
    updatePrompt params store now = Except.error (McpError.validation oneFieldRequiredMsg)
    ↔ (truthyOpt params.name = false ∧ truthyOpt params.description = false
        ∧ params.messages = none) := by
  simp only [updatePrompt, hid, Bool.false_eq_true, if_false]
  by_cases hc :
      (!truthyOpt params.name && !truthyOpt params.description && params.messages.isNone) = true
  · rw [if_pos hc]
    simp only [Bool.and_eq_true, Bool.not_eq_true', Option.isNone_iff_eq_none] at hc
    obtain ⟨⟨hn, hd⟩, hm⟩ := hc
    simp [hn, hd, hm]
  · rw [if_neg hc]
    simp only [Bool.and_eq_true, Bool.not_eq_true', Option.isNone_iff_eq_none] at hc
    constructor
    · intro h
      match hlk : lookupPrompt store params.id with
      | none => rw [hlk] at h; simp at h
      | some existing => rw [hlk] at h; simp at h
    · intro h
      exact absurd ⟨⟨h.1, h.2.1⟩, h.2.2⟩ hc

/-- Witness for `update_nofield_iff` at a concrete input. -/
theorem update_nofield_iff_witness :
    isBlank (['i'] : Str) = false
    ∧ (updatePrompt { id := ['i'], name := none, description := none, messages := none }
          ([] : Store) ['u']
        = Except.error (McpError.validation oneFieldRequiredMsg)
      ↔ (truthyOpt (none : Option Str) = false ∧ truthyOpt (none : Option Str) = false
          ∧ (none : Option (List PromptMessage)) = none)) :=
  ⟨by decide,
    update_nofield_iff { id := ['i'], name := none, description := none, messages := none }
      [] ['u'] (by decide)⟩

end Promptopia

namespace Promptopia

/-! ## Missing-variable validation of apply (claim C5) -/

/-- C5: for a stored entity, `applyPrompt` fails with a Validation
error exactly when some name of the entity's variables list is absent
as a key of the supplied map, and the error message is exactly the
missing names, comma-joined, in the order they appear in the entity's
variables list (`filter` preserves that order); when nothing is
missing, the call does not fail at all. -/
theorem applyPrompt_missing_vars (id : Str) (store : Store) (V : List (Str × Str)) (p : Prompt)
    (hid : isBlank id = false) (hlk : lookupPrompt store id = some p) :
    (applyPrompt { id := id, vars := V } store
        = Except.error (McpError.validation
            (missingVarsPrefix ++ joinComma (p.vars.filter fun v => !hasKey V v)))
      ↔ p.vars.filter (fun v => !hasKey V v) ≠ [])
    ∧ ((p.vars.filter fun v => !hasKey V v) = [] →
        ∀ e, applyPrompt { id := id, vars := V } store ≠ Except.error e) := by
  simp only [applyPrompt, hid, Bool.false_eq_true, if_false, hlk]
  by_cases hm : (p.vars.filter fun v => !hasKey V v) = []
  · rw [if_pos hm]
    constructor
    · constructor
      · intro h
        split_ifs at h <;> cases h
      · intro h
        exact absurd hm h
    · intro _ e
      split_ifs <;> intro h <;> cases h
  · rw [if_neg hm]
    constructor
    · constructor
      · intro _
        exact hm
      · intro _
        rfl
    · intro h
      exact absurd h hm

/-- The entity used by the C5 witness: a single-content prompt whose
variables list is `x`, `y`. -/
def p5ex : Prompt :=
  { id := ['i'], name := ['n'], description := some [], content := some ['c'],
    vars := [['x'], ['y']], createdAt := ['t'], updatedAt := some ['t'],
    version := none, messages := none }

/-- Witness for `applyPrompt_missing_vars`: applying with an empty map
yields the Validation error listing `x, y`. -/
theorem applyPrompt_missing_vars_witness :
    isBlank (['i'] : Str) = false
    ∧ lookupPrompt [(['i'], p5ex)] ['i'] = some p5ex
    ∧ applyPrompt { id := ['i'], vars := [] } [(['i'], p5ex)]
        = Except.error (McpError.validation
            (missingVarsPrefix ++ joinComma (p5ex.vars.filter fun v => !hasKey [] v)))
    ∧ missingVarsPrefix ++ joinComma (p5ex.vars.filter fun v => !hasKey [] v)
        = "Missing required variables: x, y".toList :=
  ⟨by decide, rfl,
    ((applyPrompt_missing_vars ['i'] [(['i'], p5ex)] [] p5ex (by decide) rfl).1).mpr
      (by decide),
    by decide⟩

end Promptopia

namespace Promptopia

/-! ## Format conversion (claim C6) -/

theorem lookupPrompt_insertStore (store : Store) (id : Str) (p : Prompt) :
    lookupPrompt (insertStore store id p) id = some p := by
  simp [insertStore, lookupPrompt]

/-- C6: a successful `updatePrompt` on an existing Single-Content
entity with `messages` supplied returns (and persists, the written blob
being the returned entity) an entity whose Multi-Message discriminator
is present (`version = 2.0`), whose `content` is absent, whose `id` and
`createdAt` equal the existing entity's, and whose variables are
recomputed from the supplied messages; and a successful `updatePrompt`
on a Multi-Message entity always yields a Multi-Message entity, so no
operation produces a Single-Content entity from a Multi-Message
one. -/
theorem updatePrompt_conversion (params : UpdatePromptParams) (store : Store) (now : Str)
    (existing : Prompt) (r : UpdatePromptResult) (st : Store) (ms : List PromptMessage)
    (hlk : lookupPrompt store params.id = some existing)
    (h : updatePrompt params store now = Except.ok (r, st)) :
    (isMultiMessagePrompt existing = false → params.messages = some ms →
      isMultiMessagePrompt r.prompt = true
      ∧ r.prompt.version = some v20
      ∧ r.prompt.content = none
      ∧ r.prompt.id = existing.id
      ∧ r.prompt.createdAt = existing.createdAt
      ∧ r.prompt.vars = extractVariablesFromMessages ms
      ∧ r.prompt.messages = some ms
      ∧ lookupPrompt st params.id = some r.prompt)
    ∧ (isMultiMessagePrompt existing = true → isMultiMessagePrompt r.prompt = true) := by
  simp only [updatePrompt] at h
  split_ifs at h
  rw [hlk] at h
  cases h
  constructor
  · intro hsingle hmsg
    rw [hsingle] at *
    simp only [Bool.false_eq_true, if_false, hmsg]
    refine ⟨?_, rfl, rfl, rfl, rfl, rfl, rfl, lookupPrompt_insertStore store params.id _⟩
    simp [isMultiMessagePrompt, convertToMulti]
  · intro hmulti
    rw [hmulti]
    simp only [if_true]
    have : (updMulti existing params now).version = existing.version := rfl
    simp only [isMultiMessagePrompt] at hmulti ⊢
    rw [this]
    exact hmulti

/-- Parameters converting the single-content `p1ex` to multi-message
format. -/
def pu6 : UpdatePromptParams :=
  { id := ['i'], name := none, description := none, messages := some [msgEx] }

def r6ex : UpdatePromptResult :=
  { success := true, message := updatedMsg ['i'],
    prompt := convertToMulti p1ex pu6 [msgEx] ['u'] }

/-- Witness for `updatePrompt_conversion` at a concrete input. -/
theorem updatePrompt_conversion_witness :
    lookupPrompt [(['i'], p1ex)] ['i'] = some p1ex
    ∧ updatePrompt pu6 [(['i'], p1ex)] ['u']
        = Except.ok (r6ex, insertStore [(['i'], p1ex)] ['i'] r6ex.prompt)
    ∧ isMultiMessagePrompt p1ex = false
    ∧ (isMultiMessagePrompt r6ex.prompt = true
        ∧ r6ex.prompt.version = some v20
        ∧ r6ex.prompt.content = none
        ∧ r6ex.prompt.id = p1ex.id
        ∧ r6ex.prompt.createdAt = p1ex.createdAt
        ∧ r6ex.prompt.vars = extractVariablesFromMessages [msgEx]
        ∧ r6ex.prompt.messages = some [msgEx]
        ∧ lookupPrompt (insertStore [(['i'], p1ex)] ['i'] r6ex.prompt) ['i']
            = some r6ex.prompt) :=
  ⟨rfl, rfl, rfl,
    (updatePrompt_conversion pu6 [(['i'], p1ex)] ['u'] p1ex r6ex
      (insertStore [(['i'], p1ex)] ['i'] r6ex.prompt) [msgEx] rfl rfl).1 rfl rfl⟩

end Promptopia

namespace Promptopia

/-! ## Listing with partial failures (claim C8) -/

theorem listLoop_eq (reads : List (Except Str Prompt)) :
    ∀ acc : List Prompt,
      listLoop reads acc
        = acc ++ reads.filterMap
            (fun r => match r with | Except.ok p => some p | Except.error _ => none) := by
  induction reads with
  | nil => intro acc; simp [listLoop]
  | cons r reads ih =>
    intro acc
    match r with
    | Except.ok p => simp [listLoop, ih]
    | Except.error e => simp [listLoop, ih]

/-- C8: `listPrompts` is total on any mix of readable and unreadable
blobs: it returns exactly the successfully read entities, in
enumeration order, each unreadable entry being skipped individually
rather than failing the whole call. -/
theorem listPrompts_skips_unreadable (reads : List (Except Str Prompt)) :
    listPrompts reads
      = reads.filterMap
          (fun r => match r with | Except.ok p => some p | Except.error _ => none)
    ∧ (∀ p : Prompt, p ∈ listPrompts reads ↔ Except.ok p ∈ reads) := by
  have heq := listLoop_eq reads []
  simp only [List.nil_append] at heq
  refine ⟨heq, ?_⟩
  intro p
  rw [listPrompts, heq, List.mem_filterMap]
  constructor
  · rintro ⟨r, hr, hmap⟩
    match r with
    | Except.ok q => simp at hmap; exact hmap ▸ hr
    | Except.error e => simp at hmap
  · intro h
    exact ⟨Except.ok p, h, rfl⟩

/-! ## Frame property of apply on messages (claim C9) -/

/-- The per-message substitution changes nothing but the text of a
truthy `text`-kind content. -/
theorem applyMessage_frame (V : List (Str × Str)) (m : PromptMessage) :
    (applyMessage V m).role = m.role
    ∧ (applyMessage V m).content.type = m.content.type
    ∧ (applyMessage V m).content.image = m.content.image
    ∧ (m.content.type ≠ textType → applyMessage V m = m)
    ∧ (m.content.type = textType →
        (applyMessage V m).content.text
          = m.content.text.map (fun t => replaceVariables t V)) := by
  match hm : m.content.text with
  | none =>
    simp [applyMessage, hm]
  | some t =>
    simp only [applyMessage, hm]
    by_cases hc : m.content.type = textType ∧ t ≠ []
    · rw [if_pos hc]
      refine ⟨rfl, rfl, rfl, fun hne => absurd hc.1 hne, fun _ => ?_⟩
      simp [hm]
    · rw [if_neg hc]
      refine ⟨rfl, rfl, rfl, fun _ => rfl, fun ht => ?_⟩
      have hte : t = [] := by
        by_cases h : t = []
        · exact h
        · exact absurd ⟨ht, h⟩ hc
      subst hte
      simp [hm]
      rfl

/-- C9: for a stored Multi-Message entity and a variables map that
passes validation, `applyPrompt` succeeds and returns the message list
mapped by the per-message substitution: same length and order, each
role and content kind unchanged, image content unchanged, and only the
text of `text`-kind messages substituted. -/
theorem applyPrompt_frame (id : Str) (store : Store) (V : List (Str × Str)) (p : Prompt)
    (ms : List PromptMessage)
    (hid : isBlank id = false) (hlk : lookupPrompt store id = some p)
    (hmulti : isMultiMessagePrompt p = true) (hmsgs : p.messages = some ms)
    (hmiss : (p.vars.filter fun v => !hasKey V v) = []) :
    applyPrompt { id := id, vars := V } store
      = Except.ok
          { result := stringifyMessages (ms.map (applyMessage V)),
            messages := some (ms.map (applyMessage V)) }
    ∧ (ms.map (applyMessage V)).length = ms.length
    ∧ ∀ m ∈ ms,
        (applyMessage V m).role = m.role
        ∧ (applyMessage V m).content.type = m.content.type
        ∧ (applyMessage V m).content.image = m.content.image
        ∧ (m.content.type ≠ textType → applyMessage V m = m)
        ∧ (m.content.type = textType →
            (applyMessage V m).content.text
              = m.content.text.map (fun t => replaceVariables t V)) := by
  refine ⟨?_, List.length_map ms (applyMessage V), fun m _ => applyMessage_frame V m⟩
  simp only [applyPrompt, hid, Bool.false_eq_true, if_false, hlk, hmiss, if_pos rfl,
    hmulti, if_true, hmsgs, Option.getD_some]

/-- The multi-message entity used by the C9 witness: one text message
holding one placeholder. -/
def p9msg : PromptMessage :=
  { role := userRole,
    content := { type := textType, text := some ['{', '{', 'x', '}', '}'], image := none } }

def p9ex : Prompt :=
  { id := ['i'], name := ['n'], description := some [], content := none,
    vars := [['x']], createdAt := ['t'], updatedAt := none, version := some v20,
    messages := some [p9msg] }

/-- Witness for `applyPrompt_frame` at a concrete input. -/
theorem applyPrompt_frame_witness :
    isBlank (['i'] : Str) = false
    ∧ lookupPrompt [(['i'], p9ex)] ['i'] = some p9ex
    ∧ isMultiMessagePrompt p9ex = true
    ∧ (p9ex.vars.filter fun v => !hasKey [((['x'] : Str), (['v'] : Str))] v) = []
    ∧ applyPrompt { id := ['i'], vars := [(['x'], ['v'])] } [(['i'], p9ex)]
        = Except.ok
            { result := stringifyMessages ([p9msg].map (applyMessage [(['x'], ['v'])])),
              messages := some ([p9msg].map (applyMessage [(['x'], ['v'])])) }
    ∧ ([p9msg].map (applyMessage [(['x'], ['v'])])).length = ([p9msg] : List PromptMessage).length
    ∧ (applyMessage [(['x'], ['v'])] p9msg).content.text = some ['v']
    ∧ (applyMessage [(['x'], ['v'])] p9msg).role = p9msg.role :=
  ⟨by decide, rfl, rfl, by decide,
    (applyPrompt_frame ['i'] [(['i'], p9ex)] [(['x'], ['v'])] p9ex [p9msg]
      (by decide) rfl rfl rfl (by decide)).1,
    (applyPrompt_frame ['i'] [(['i'], p9ex)] [(['x'], ['v'])] p9ex [p9msg]
      (by decide) rfl rfl rfl (by decide)).2.1,
    by decide, rfl⟩

/-! ## Blank-id validation (claims C10) -/

theorem isBlank_of_all_ws (id : Str) (h : id.all isWs = true) : isBlank id = true := by
  have h1 : id.dropWhile isWs = [] := by
    rw [List.dropWhile_eq_nil_iff]
    intro x hx
    simp only [List.all_eq_true] at h
    exact h x hx
  simp [isBlank, trim, h1]

/-- C10: for an id that is empty or consists only of whitespace,
`getPrompt`, `deletePrompt`, `updatePrompt` and `applyPrompt` all fail
with the id-required Validation error (never NotFound); the result is
the same for every store, reflecting that the guard runs before any
storage access. -/
theorem blank_id_validation (id : Str) (store : Store) (nm ds : Option Str)
    (msgs : Option (List PromptMessage)) (V : List (Str × Str)) (now : Str)
    (h : id.all isWs = true) :
    getPrompt id store = Except.error (McpError.validation idRequiredMsg)
    ∧ deletePrompt id store = Except.error (McpError.validation idRequiredMsg)
    ∧ updatePrompt { id := id, name := nm, description := ds, messages := msgs } store now
        = Except.error (McpError.validation idRequiredMsg)
    ∧ applyPrompt { id := id, vars := V } store
        = Except.error (McpError.validation idRequiredMsg) := by
  have hb : isBlank id = true := isBlank_of_all_ws id h
  refine ⟨?_, ?_, ?_, ?_⟩
  · simp [getPrompt, hb]
  · simp [deletePrompt, hb]
  · simp [updatePrompt, hb]
  · simp [applyPrompt, hb]

/-- Witness for `blank_id_validation` with a whitespace-only id and a
non-empty store. -/
theorem blank_id_validation_witness :
    ([' '] : Str).all isWs = true
    ∧ getPrompt [' '] [(['i'], p1ex)] = Except.error (McpError.validation idRequiredMsg)
    ∧ deletePrompt [' '] [(['i'], p1ex)] = Except.error (McpError.validation idRequiredMsg)
    ∧ updatePrompt { id := [' '], name := some ['m'], description := none, messages := none }
        [(['i'], p1ex)] ['u'] = Except.error (McpError.validation idRequiredMsg)
    ∧ applyPrompt { id := [' '], vars := [] } [(['i'], p1ex)]
        = Except.error (McpError.validation idRequiredMsg) :=
  ⟨by decide,
    (blank_id_validation [' '] [(['i'], p1ex)] (some ['m']) none none [] ['u'] (by decide)).1,
    (blank_id_validation [' '] [(['i'], p1ex)] (some ['m']) none none [] ['u'] (by decide)).2.1,
    (blank_id_validation [' '] [(['i'], p1ex)] (some ['m']) none none [] ['u'] (by decide)).2.2.1,
    (blank_id_validation [' '] [(['i'], p1ex)] (some ['m']) none none [] ['u'] (by decide)).2.2.2⟩

end Promptopia
